import Mathlib

/-!
Verification of the wxt-zustand synchronization core against its sources.

The embedding models JavaScript flat record states as ordered association
lists of string keys to runtime values, and the stateful modules
(readiness registry, retry loops, sync sessions, authority service,
corruption recovery) as explicit state-passing functions whose
environments capture the outcomes of the external effects
(RPC fetches, storage reads/writes, timers).
-/

namespace WxtZustand

/-- A JavaScript runtime value as far as the sync engine observes it:
ordinary primitives compared by value, NaN (the one primitive that is
unequal to itself under strict equality), objects and functions
compared by reference identity (modelled by a numeric identity), and
the distinguished undefined value that indexing a missing property
yields. Lean equality on this type is the toEqual-style sameness the
tests use (under which NaN equals NaN); JS strict equality is the
separate strictEq below. -/
inductive Value where
  | jsUndefined : Value
  | prim : String → Value
  | nan : Value
  | ref : Nat → Value
  | fnref : Nat → Value
deriving DecidableEq, Repr

/-- Whether a value is callable, i.e. typeof val is function. -/
def Value.isFunction : Value → Bool
  | .fnref _ => true
  | _ => false

/-- JavaScript strict equality on modelled values: NaN is unequal to
everything, itself included; every other value compares by value
(primitives, undefined) or by reference identity (objects,
functions). -/
def strictEq (a b : Value) : Bool :=
  if a = .nan then false
  else if b = .nan then false
  else decide (a = b)

/-- A flat JavaScript record (one store state snapshot): ordered own
properties, as iterated by Object.keys. Real JS objects have distinct
keys; where a result depends on that, the theorem carries a nodup
hypothesis. -/
def Obj : Type := List (String × Value)

instance : DecidableEq Obj := by
  unfold Obj
  infer_instance

instance : Repr Obj :=
  inferInstanceAs (Repr (List (String × Value)))

instance {ε α : Type} [DecidableEq ε] [DecidableEq α] : DecidableEq (Except ε α) := fun x y =>
  match x, y with
  | .ok a, .ok b =>
    if h : a = b then .isTrue (by rw [h])
    else .isFalse (by intro hh; apply h; injection hh)
  | .error a, .error b =>
    if h : a = b then .isTrue (by rw [h])
    else .isFalse (by intro hh; apply h; injection hh)
  | .ok _, .error _ => .isFalse (by intro hh; cases hh)
  | .error _, .ok _ => .isFalse (by intro hh; cases hh)

/-- Own-property lookup: the first binding for the key, if any. -/
def getOwn : Obj → String → Option Value
  | [], _ => none
  | (k0, v0) :: rest, key => if k0 = key then some v0 else getOwn rest key

/-- Object.hasOwn: the key is an own property (possibly undefined-valued). -/
def hasOwn (o : Obj) (key : String) : Bool :=
  (getOwn o key).isSome

/-- JavaScript property read obj of key: the bound value, or undefined when
the key is not an own property. -/
def valueAt (o : Obj) (key : String) : Value :=
  (getOwn o key).getD .jsUndefined

/-- Object.keys: own keys in insertion order. -/
def keys (o : Obj) : List String :=
  o.map Prod.fst

/-- JavaScript property assignment obj key value: overwrite in place when
the key exists, append otherwise. -/
def setKey : Obj → String → Value → Obj
  | [], key, v => [(key, v)]
  | (k0, v0) :: rest, key, v =>
    if k0 = key then (k0, v) :: rest else (k0, v0) :: setKey rest key v

/-- Reflect.deleteProperty: drop the key from the record. -/
def eraseKey : Obj → String → Obj
  | [], _ => []
  | (k0, v0) :: rest, key =>
    if k0 = key then eraseKey rest key else (k0, v0) :: eraseKey rest key

/-- Deep equality of flat record snapshots in the sense the tests use
(toEqual): the two records bind every key to the same value, with
undefined-valued properties indistinguishable from absent ones. -/
def deepEqual (a b : Obj) : Prop :=
  ∀ key, valueAt a key = valueAt b key

/-- ChangeType from src/types.ts. -/
inductive ChangeType where
  | updated
  | removed
  | keysUpdated
  | arrayUpdated
deriving DecidableEq, Repr

/-- StateChange from src/types.ts: change kind, key, optional value. -/
structure StateChange where
  change : ChangeType
  key : String
  value : Option Value
deriving DecidableEq, Repr

/-- StateDiff from src/types.ts. -/
def StateDiff : Type := List StateChange

/-- shallowDiff from src/utils/shallowDiff.ts, on the valid-object case
(both arguments are non-null objects, so the throwing guard does not
fire): for every key of newObj whose value differs from oldObj at that
key under JS strict equality (strictEq, so a NaN binding always
differs, even from itself), an updated record carrying newObj at the
key; then for every key of oldObj absent from newObj, a removed
record. -/
def shallowDiff (oldObj newObj : Obj) : List StateChange :=
  ((keys newObj).filterMap fun key =>
    if strictEq (valueAt oldObj key) (valueAt newObj key) then none
    else some { change := .updated, key := key, value := some (valueAt newObj key) })
  ++ ((keys oldObj).filterMap fun key =>
    if hasOwn newObj key then none
    else some { change := .removed, key := key, value := none })

/-- One step of shallowPatch from src/utils/shallowPatch.ts: an updated
record assigns the carried value (undefined when missing), a removed
record deletes the key, and any other change kind is logged and ignored,
leaving the key untouched. -/
def applyChange (obj : Obj) (c : StateChange) : Obj :=
  match c.change with
  | .updated => setKey obj c.key (c.value.getD .jsUndefined)
  | .removed => eraseKey obj c.key
  | _ => obj

/-- shallowPatch from src/utils/shallowPatch.ts: fold the changes over a
shallow copy of the base object. -/
def shallowPatch (obj : Obj) (difference : List StateChange) : Obj :=
  difference.foldl applyChange obj

/-- Pointwise effect of one change record on the value observed at a
fixed key. -/
def stepAt (key : String) (cur : Option Value) (c : StateChange) : Option Value :=
  if c.key = key then
    match c.change with
    | .updated => some (c.value.getD .jsUndefined)
    | .removed => none
    | _ => cur
  else cur

/-- stripFunctionProps from src/utils/stateTransforms.ts, on the object
case (null and non-object states are returned as given and carry no
members): build a fresh record by assigning every own key whose value is
not a function. -/
def stripFunctionProps (state : Obj) : Obj :=
  state.foldl (fun out p => if p.2.isFunction then out else setKey out p.1 p.2) []

/-- mergeStatePreservingFunctions from src/utils/stateTransforms.ts:
start from a spread copy of next, then assign every function-valued own
key of current over it, replacing non-function keys exactly by next. -/
def mergeStatePreservingFunctions (current next : Obj) : Obj :=
  current.foldl (fun merged p => if p.2.isFunction then setKey merged p.1 p.2 else merged) next

/-- Whether a record carries no function-valued member. -/
def hasNoFunctions (o : Obj) : Bool :=
  o.all fun p => !p.2.isFunction

/-- The fixed sync tag from src/types.ts, field type of WXTZustandAction. -/
def wxtZustandSyncType : String := "__WXT_ZUSTAND_SYNC__"

/-- WXTZustandAction from src/types.ts: the envelope sent over the RPC
channel. In the source the type tag is the fixed literal at the type
level; here any tag is representable so that mismatched tags can be
dispatched. -/
structure WXTZustandAction where
  type : String
  state : Obj
deriving DecidableEq, Repr

/-- The envelope the push-path localCallback of src/frontend/sync.ts
dispatches for a local state transition: the fixed sync tag and the
snapshot with callable members stripped. -/
def localCallbackAction (state : Obj) : WXTZustandAction :=
  { type := wxtZustandSyncType, state := stripFunctionProps state }

/-- Outcome of one BackendStoreService.dispatch call from
src/background/service.ts: the echoed envelope, the canonical state
after the call, and which log paths fired. The source wraps the
setState application in try/catch, so every branch returns normally;
setStateFails models the catch branch where applying the state throws. -/
structure DispatchOutcome where
  returned : WXTZustandAction
  store : Obj
  warned : Bool
  errorLogged : Bool
deriving DecidableEq, Repr

/-- dispatch from src/background/service.ts (lines 323-349): a
mismatched type tag is warned about and the envelope echoed back with
the store untouched; otherwise the incoming state is merged with
function preservation and installed, any setState failure being caught
and logged with the envelope still returned. -/
def dispatch (setStateFails : Bool) (storeState : Obj) (action : WXTZustandAction) :
    DispatchOutcome :=
  if action.type ≠ wxtZustandSyncType then
    { returned := action, store := storeState, warned := true, errorLogged := false }
  else if setStateFails then
    { returned := action, store := storeState, warned := false, errorLogged := true }
  else
    { returned := action,
      store := mergeStatePreservingFunctions storeState action.state,
      warned := false, errorLogged := false }

/-- fetchInitialState from src/background/service.ts (lines 368-372):
re-track the caller as connected, then return store.getState() as is.
The client-tracking side effect does not alter the snapshot, which is
returned without any stripping. -/
def fetchInitialState (currentState : Obj) : Obj :=
  currentState

/-- The readiness module state of src/frontend/ready.ts: the registry
maps (store instance identity, logical store name) pairs to cached
readiness promises (numbered handles here), and the counters record how
many connect-and-fetch operations and bidirectional-sync attachments
the cached promises perform. -/
structure ReadyState where
  registry : List ((Nat × String) × Nat)
  fetchCount : Nat
  attachCount : Nat
  nextPromiseId : Nat
deriving DecidableEq, Repr

/-- getStoreReadiness: the cached readiness promise for a store and
name, if any. -/
def getStoreReadiness : List ((Nat × String) × Nat) → Nat × String → Option Nat
  | [], _ => none
  | (k, p) :: rest, pair => if k = pair then some p else getStoreReadiness rest pair

/-- wxtZustandStoreReady from src/frontend/ready.ts (lines 106-135) as
one event-loop step: the cache check, promise creation and
setStoreReadiness all run synchronously before any await can interleave
another call, so the entry point either returns the cached promise
untouched or atomically registers a fresh promise whose body performs
exactly one connectAndFetchInitialState and one setupBidirectionalSync. -/
def wxtZustandStoreReady (storeId : Nat) (storeName : String) (s : ReadyState) :
    ReadyState × Nat :=
  match getStoreReadiness s.registry (storeId, storeName) with
  | some p => (s, p)
  | none =>
    ({ registry := ((storeId, storeName), s.nextPromiseId) :: s.registry,
       fetchCount := s.fetchCount + 1,
       attachCount := s.attachCount + 1,
       nextPromiseId := s.nextPromiseId + 1 }, s.nextPromiseId)

/-- The mutable state of one SyncSession from src/frontend/sync.ts: the
cleaned flag guarding cleanup, and how often the underlying local
unsubscribe and remote unwatch handles have been invoked. The try/catch
around each handle only logs, so it does not affect the counts. -/
structure SessionState where
  cleaned : Bool
  unsubCalls : Nat
  unwatchCalls : Nat
deriving DecidableEq, Repr

/-- cleanup from src/frontend/sync.ts (lines 118-133): return at once
when already cleaned, otherwise set the flag and invoke the local
unsubscribe and the remote unwatch once each. -/
def cleanup (s : SessionState) : SessionState :=
  if s.cleaned then s
  else { cleaned := true, unsubCalls := s.unsubCalls + 1, unwatchCalls := s.unwatchCalls + 1 }

/-- A JavaScript error as the retry loops observe it: its message
string. The source classifier accepts anything with a message and
stringifies the rest; the message is all that classification reads. -/
structure JsError where
  message : String
deriving DecidableEq, Repr

/-- Substring test: whether needle occurs contiguously in haystack,
matching String.prototype.includes. -/
def containsSub : List Char → List Char → Bool
  | haystack, needle =>
    match haystack with
    | [] => needle.isEmpty
    | _ :: rest => needle.isPrefixOf haystack || containsSub rest needle

/-- isExtensionContextInvalidated from src/frontend/errors.ts: the
message contains the fatal-context phrase. -/
def isExtensionContextInvalidated (e : JsError) : Bool :=
  containsSub e.message.toList ("Extension context invalidated".toList)

/-- Observable trace of one connectAndFetchInitialState run from
src/frontend/connect.ts: the value returned or error re-raised, how
many fetchInitialState calls were made, the backoff delays awaited
between attempts, how many first-failure warnings were logged, the
attempt count carried by the exhaustion error log if it fired, and how
many reloadPageOnInvalidation recovery actions ran. -/
structure FetchTrace (S : Type) where
  result : Except JsError S
  fetchCalls : Nat
  waits : List Nat
  warnCount : Nat
  errorLogAttempts : Option Nat
  reloadCount : Nat
deriving DecidableEq, Repr

/-- The retry loop of connectAndFetchInitialState from
src/frontend/connect.ts (lines 93-118), indexed by the remaining retry
budget (maxRetries minus the current attempt counter, which the source
compares as attempt greater or equal maxRetries) and the current
attempt number. fetchResult gives the outcome of the remote
fetchInitialState on each attempt. On success the state is returned; on
a fatal-context error the page reload runs once and the error is
re-raised; on a transient error with budget left the loop warns when
this is the first attempt, waits baseMs times two to the attempt, and
retries; with the budget exhausted it logs the error with the attempt
count and re-raises. -/
def connectLoop {S : Type} (fetchResult : Nat → Except JsError S) (baseMs : Nat) :
    Nat → Nat → FetchTrace S
  | remaining, attempt =>
    match fetchResult attempt with
    | .ok v =>
      { result := .ok v, fetchCalls := 1, waits := [], warnCount := 0,
        errorLogAttempts := none, reloadCount := 0 }
    | .error e =>
      if isExtensionContextInvalidated e then
        { result := .error e, fetchCalls := 1, waits := [], warnCount := 0,
          errorLogAttempts := none, reloadCount := 1 }
      else
        match remaining with
        | 0 =>
          { result := .error e, fetchCalls := 1, waits := [], warnCount := 0,
            errorLogAttempts := some (attempt + 1), reloadCount := 0 }
        | r + 1 =>
          let rest := connectLoop fetchResult baseMs r (attempt + 1)
          { result := rest.result, fetchCalls := rest.fetchCalls + 1,
            waits := (baseMs * 2 ^ attempt) :: rest.waits,
            warnCount := (if attempt = 0 then 1 else 0) + rest.warnCount,
            errorLogAttempts := rest.errorLogAttempts,
            reloadCount := rest.reloadCount }

/-- connectAndFetchInitialState from src/frontend/connect.ts (lines
82-119): resolve the proxy service synchronously, then run the fetch
loop with retries defaulting to 5 and baseMs defaulting to 50, starting
at attempt 0. -/
def connectAndFetchInitialState {S : Type} (fetchResult : Nat → Except JsError S)
    (retries baseMs : Option Nat) : FetchTrace S :=
  connectLoop fetchResult (baseMs.getD 50) (retries.getD 5) 0

/-- Observable trace of one saveWithBackoff run from
src/background/service.ts: the outcome surfaced to the caller, how many
save attempts were made, the backoff delays awaited, how many
first-failure warnings were logged, and the attempt count carried by
the exhaustion error log if it fired. -/
structure SaveTrace where
  result : Except JsError Unit
  saveCalls : Nat
  waits : List Nat
  warnCount : Nat
  errorLogAttempts : Option Nat
deriving DecidableEq, Repr

/-- The retry loop of saveWithBackoff from src/background/service.ts
(lines 90-111), indexed like connectLoop by the remaining retry budget
and the attempt number; saveResult gives the outcome of each
saveStateToStorage call. Success returns; a failure with budget left
warns on the first attempt, waits baseMs times two to the attempt and
retries; a failure with the budget exhausted logs the error with the
attempt count and re-raises it to the caller. -/
def saveLoop (saveResult : Nat → Except JsError Unit) (baseMs : Nat) :
    Nat → Nat → SaveTrace
  | remaining, attempt =>
    match saveResult attempt with
    | .ok _ =>
      { result := .ok (), saveCalls := 1, waits := [], warnCount := 0,
        errorLogAttempts := none }
    | .error e =>
      match remaining with
      | 0 =>
        { result := .error e, saveCalls := 1, waits := [], warnCount := 0,
          errorLogAttempts := some (attempt + 1) }
      | r + 1 =>
        let rest := saveLoop saveResult baseMs r (attempt + 1)
        { result := rest.result, saveCalls := rest.saveCalls + 1,
          waits := (baseMs * 2 ^ attempt) :: rest.waits,
          warnCount := (if attempt = 0 then 1 else 0) + rest.warnCount,
          errorLogAttempts := rest.errorLogAttempts }

/-- saveWithBackoff from src/background/service.ts (lines 76-112):
retries defaulting to 3 and baseMs defaulting to 50, starting at
attempt 0. -/
def saveWithBackoff (saveResult : Nat → Except JsError Unit)
    (retries baseMs : Option Nat) : SaveTrace :=
  saveLoop saveResult (baseMs.getD 50) (retries.getD 3) 0

/-- Environment of one loadStateFromVersionedItem call from
src/storage/index.ts: the outcome of item.getValue (a present value,
a nullish miss, or a thrown deserialization error), the item key, the
outcome of the raw storage.getItem read inside corruption handling,
whether the backup storage.setItem and the item.remove throw, and the
Date.now timestamp. -/
structure VersionedLoadEnv (S : Type) where
  getValueResult : Except JsError (Option S)
  itemKey : String
  rawRead : Except JsError (Option String)
  backupWriteFails : Bool
  removeFails : Bool
  now : Nat
deriving DecidableEq, Repr

/-- What a corruption-recovery pass persisted and logged: the backup
entries written, whether the original item was removed, and whether the
backup-or-removal failure path was logged. -/
structure CorruptionRecovery where
  backupWrites : List (String × String)
  removedOriginal : Bool
  recoveryFailureLogged : Bool
deriving DecidableEq, Repr

/-- handleCorruptedState from src/storage/index.ts (lines 277-307): log
the corruption, then inside one try block read the raw payload, back it
up under the key suffixed with ":corrupted-" and the timestamp when the
raw value is present, and remove the original item; any failure inside
the block is caught and logged without escalating, skipping the
remaining steps. -/
def handleCorruptedState {S : Type} (env : VersionedLoadEnv S) : CorruptionRecovery :=
  match env.rawRead with
  | .error _ => { backupWrites := [], removedOriginal := false, recoveryFailureLogged := true }
  | .ok none =>
    if env.removeFails then
      { backupWrites := [], removedOriginal := false, recoveryFailureLogged := true }
    else
      { backupWrites := [], removedOriginal := true, recoveryFailureLogged := false }
  | .ok (some raw) =>
    if env.backupWriteFails then
      { backupWrites := [], removedOriginal := false, recoveryFailureLogged := true }
    else
      let backupKey := env.itemKey ++ ":corrupted-" ++ toString env.now
      if env.removeFails then
        { backupWrites := [(backupKey, raw)], removedOriginal := false,
          recoveryFailureLogged := true }
      else
        { backupWrites := [(backupKey, raw)], removedOriginal := true,
          recoveryFailureLogged := false }

/-- loadStateFromVersionedItem from src/storage/index.ts (lines
312-323): return the read value with nullish normalized to undefined;
when getValue throws, run corruption handling and return undefined.
The Except return mirrors the callable boundary: an error result would
mean an exception escaping to the caller. -/
def loadStateFromVersionedItem {S : Type} (env : VersionedLoadEnv S) :
    Except JsError (Option S × CorruptionRecovery) :=
  match env.getValueResult with
  | .ok v =>
    .ok (v, { backupWrites := [], removedOriginal := false, recoveryFailureLogged := false })
  | .error _ => .ok (none, handleCorruptedState env)

/-- Whether an Except result is a normal return. -/
def exceptOk {ε α : Type} : Except ε α → Bool
  | .ok _ => true
  | .error _ => false

/-- Whether a record binds no NaN value, so that strict equality is
reflexive on all of its fields. -/
def hasNoNaN (o : Obj) : Bool :=
  o.all fun p => p.2 != Value.nan

/-- A record binding one NaN value, as an ordinary store state may. -/
def demoNaNState : Obj :=
  [("a", Value.nan)]

/-- Canonical store snapshot holding a data member and an action
closure, as zustand stores commonly do. -/
def demoStateWithAction : Obj :=
  [("count", Value.prim "0"), ("increment", Value.fnref 0)]

/-- Transient error used by concrete retry scenarios: the proxy service
failing before the background has registered. -/
def demoTransientError : JsError := ⟨"Failed to get service"⟩

/-- The classic Chromium fatal-context error message. -/
def demoFatalError : JsError := ⟨"Extension context invalidated."⟩

/-- Storage failure used by the concrete save-retry scenario. -/
def demoSaveError : JsError := ⟨"Storage error"⟩

/-- Concrete corrupted-read environment: a deserialization failure with
a readable raw payload and healthy backup and removal operations. -/
def demoCorruptEnv : VersionedLoadEnv Obj :=
  { getValueResult := .error ⟨"Unexpected token in JSON"⟩,
    itemKey := "local:wxt-zustand:counter:state",
    rawRead := .ok (some "not-json"),
    backupWriteFails := false,
    removeFails := false,
    now := 1700000000000 }

end WxtZustand

namespace WxtZustand

theorem getOwn_setKey_self (o : Obj) (key : String) (v : Value) :
    getOwn (setKey o key v) key = some v := by
  induction o with
  | nil => simp [setKey, getOwn]
  | cons p rest ih =>
    obtain ⟨k0, v0⟩ := p
    by_cases h : k0 = key
    · simp [setKey, h, getOwn]
    · simp [setKey, h, getOwn, ih]

theorem getOwn_setKey_ne (o : Obj) (key k2 : String) (v : Value) (h : key ≠ k2) :
    getOwn (setKey o key v) k2 = getOwn o k2 := by
  induction o with
  | nil => simp [setKey, getOwn, h]
  | cons p rest ih =>
    obtain ⟨k0, v0⟩ := p
    by_cases h0 : k0 = key
    · subst h0
      simp [setKey, getOwn, h]
    · simp [setKey, h0, getOwn, ih]

theorem getOwn_eraseKey_self (o : Obj) (key : String) :
    getOwn (eraseKey o key) key = none := by
  induction o with
  | nil => simp [eraseKey, getOwn]
  | cons p rest ih =>
    obtain ⟨k0, v0⟩ := p
    by_cases h : k0 = key
    · simp [eraseKey, h, ih]
    · simp [eraseKey, h, getOwn, ih]

theorem getOwn_eraseKey_ne (o : Obj) (key k2 : String) (h : key ≠ k2) :
    getOwn (eraseKey o key) k2 = getOwn o k2 := by
  induction o with
  | nil => simp [eraseKey]
  | cons p rest ih =>
    obtain ⟨k0, v0⟩ := p
    by_cases h0 : k0 = key
    · subst h0
      simp [eraseKey, getOwn, h, ih]
    · simp [eraseKey, h0, getOwn, ih]

theorem getOwn_applyChange (o : Obj) (c : StateChange) (key : String) :
    getOwn (applyChange o c) key = stepAt key (getOwn o key) c := by
  unfold applyChange stepAt
  by_cases h : c.key = key
  · subst h
    cases c.change <;> simp [getOwn_setKey_self, getOwn_eraseKey_self]
  · cases c.change <;> simp [h, getOwn_setKey_ne _ _ _ _ h, getOwn_eraseKey_ne _ _ _ h]

theorem getOwn_foldl_applyChange (cs : List StateChange) (o : Obj) (key : String) :
    getOwn (cs.foldl applyChange o) key = cs.foldl (stepAt key) (getOwn o key) := by
  induction cs generalizing o with
  | nil => rfl
  | cons c rest ih =>
    simp only [List.foldl_cons, ih, getOwn_applyChange]

theorem mem_keys_iff_getOwn_isSome (o : Obj) (key : String) :
    key ∈ keys o ↔ (getOwn o key).isSome := by
  induction o with
  | nil => simp [keys, getOwn]
  | cons p rest ih =>
    obtain ⟨k0, v0⟩ := p
    by_cases h : k0 = key
    · subst h
      simp [keys, getOwn]
    · simp [keys, getOwn, h, Ne.symm h] at ih ⊢
      exact ih

theorem getOwn_eq_none_of_hasOwn_false (o : Obj) (key : String)
    (h : hasOwn o key = false) : getOwn o key = none := by
  unfold hasOwn at h
  exact Option.not_isSome_iff_eq_none.mp (by simp [h])

theorem strictEq_true_imp_eq (a b : Value) (h : strictEq a b = true) : a = b := by
  unfold strictEq at h
  by_cases ha : a = Value.nan
  · simp [ha] at h
  · by_cases hb : b = Value.nan
    · simp [ha, hb] at h
    · simp [ha, hb] at h
      exact h

theorem strictEq_refl_of_ne_nan (v : Value) (h : v ≠ Value.nan) :
    strictEq v v = true := by
  unfold strictEq
  simp [h]

theorem hasNoNaN_getOwn (o : Obj) (key : String) (v : Value)
    (ho : hasNoNaN o = true) (h : getOwn o key = some v) :
    v ≠ Value.nan := by
  induction o with
  | nil => simp [getOwn] at h
  | cons p rest ih =>
    obtain ⟨k0, v0⟩ := p
    simp only [hasNoNaN, List.all_cons, Bool.and_eq_true] at ho
    by_cases hk : k0 = key
    · simp only [getOwn, if_pos hk, Option.some.injEq] at h
      subst h
      simpa using ho.1
    · exact ih (by simpa [hasNoNaN] using ho.2) (by simpa [getOwn, hk] using h)

theorem foldl_stepAt_updates (oldObj newObj : Obj) (key : String) (ns : List String)
    (init : Option Value) :
    ((ns.filterMap fun k =>
      if strictEq (valueAt oldObj k) (valueAt newObj k) then none
      else
        some ({ change := .updated, key := k, value := some (valueAt newObj k) } : StateChange)).foldl
      (stepAt key) init)
    = if key ∈ ns ∧ strictEq (valueAt oldObj key) (valueAt newObj key) = false then
        some (valueAt newObj key)
      else init := by
  induction ns generalizing init with
  | nil => simp
  | cons n rest ih =>
    by_cases hn : strictEq (valueAt oldObj n) (valueAt newObj n) = true
    · rw [List.filterMap_cons]
      simp only [hn, if_true]
      rw [ih]
      by_cases hk : key = n
      · subst hk
        simp [hn]
      · simp [List.mem_cons, hk]
    · have hn2 : strictEq (valueAt oldObj n) (valueAt newObj n) = false :=
        Bool.eq_false_iff.mpr hn
      rw [List.filterMap_cons]
      simp only [hn2, Bool.false_eq_true, if_false, List.foldl_cons]
      rw [ih]
      by_cases hk : n = key
      · subst hk
        simp only [stepAt, if_pos rfl]
        simp [hn2]
      · have hk2 : ¬ key = n := fun hh => hk hh.symm
        simp only [stepAt, if_neg hk]
        simp [List.mem_cons, hk2]

theorem foldl_stepAt_removals (newObj : Obj) (key : String) (os : List String)
    (init : Option Value) :
    ((os.filterMap fun k =>
      if hasOwn newObj k then none
      else some ({ change := .removed, key := k, value := none } : StateChange)).foldl
        (stepAt key) init)
    = if key ∈ os ∧ hasOwn newObj key = false then none else init := by
  induction os generalizing init with
  | nil => simp
  | cons n rest ih =>
    by_cases hn : hasOwn newObj n
    · rw [List.filterMap_cons]
      simp only [if_pos hn]
      rw [ih]
      by_cases hk : key = n
      · subst hk
        simp [hn]
      · simp [List.mem_cons, hk]
    · rw [List.filterMap_cons]
      simp only [if_neg hn]
      simp only [List.foldl_cons]
      rw [ih]
      by_cases hk : n = key
      · subst hk
        simp only [stepAt, if_pos rfl]
        simp [Bool.eq_false_iff.mpr hn]
      · have hk2 : ¬ key = n := fun hh => hk hh.symm
        simp only [stepAt, if_neg hk]
        simp [List.mem_cons, hk2]

/-- C1: for every two flat record states, applying the diff of old
against new on top of old reconstructs new exactly: updated records
install added and overwritten keys, removed records delete the keys
absent from new, and untouched keys already agree, so the patched
object is deep-equal to new. -/
theorem shallowPatch_shallowDiff_roundtrip (oldObj newObj : Obj) :
    deepEqual (shallowPatch oldObj (shallowDiff oldObj newObj)) newObj := by
  intro key
  unfold valueAt shallowPatch
  rw [getOwn_foldl_applyChange]
  unfold shallowDiff
  rw [List.foldl_append]
  rw [foldl_stepAt_updates, foldl_stepAt_removals]
  by_cases hmem : hasOwn newObj key
  · have hkn : key ∈ keys newObj := by
      rw [mem_keys_iff_getOwn_isSome]
      unfold hasOwn at hmem
      exact hmem
    simp only [hmem, Bool.true_eq_false, and_false, if_false]
    by_cases hv : strictEq (valueAt oldObj key) (valueAt newObj key) = true
    · have heq := strictEq_true_imp_eq _ _ hv
      have hcond : ¬(key ∈ keys newObj
          ∧ strictEq (valueAt oldObj key) (valueAt newObj key) = false) := by
        intro hc
        rw [hv] at hc
        exact absurd hc.2 (by simp)
      rw [if_neg hcond]
      unfold valueAt at heq
      exact heq
    · have hv2 : strictEq (valueAt oldObj key) (valueAt newObj key) = false :=
        Bool.eq_false_iff.mpr hv
      rw [if_pos ⟨hkn, hv2⟩]
      rfl
  · have hnone : getOwn newObj key = none :=
      getOwn_eq_none_of_hasOwn_false newObj key (by simpa using hmem)
    have hkn : key ∉ keys newObj := by
      rw [mem_keys_iff_getOwn_isSome, hnone]
      simp
    simp only [hkn, false_and, if_false]
    by_cases hko : key ∈ keys oldObj
    · simp [hko, hmem, hnone]
    · have honone : getOwn oldObj key = none := by
        by_contra hc
        exact hko ((mem_keys_iff_getOwn_isSome oldObj key).mpr
          (Option.isSome_iff_ne_none.mpr hc))
      simp [hko, hnone, honone]

/-- C5 counterexample: on the record binding the key a to NaN — the
same object passed twice — the source guard comparing oldObj at a with
newObj at a under strict inequality is true because NaN is unequal to
itself, so the diff of the state against itself is a one-element
updated list, not the empty list the claim states. -/
theorem shallowDiff_self_nan_counterexample :
    shallowDiff demoNaNState demoNaNState =
      [{ change := .updated, key := "a", value := some Value.nan }]
    ∧ shallowDiff demoNaNState demoNaNState ≠ [] :=
  ⟨by decide, by decide⟩

/-- C5 amended: for every state object x binding no NaN value, the
shallow diff of x against itself — the same reference, or a record
with reference-identical fields — is the empty change list; a NaN
binding is instead reported as updated, since NaN differs from itself
under strict equality. -/
theorem shallowDiff_self_no_nan (x : Obj) (h : hasNoNaN x = true) :
    shallowDiff x x = [] := by
  unfold shallowDiff
  rw [List.append_eq_nil]
  constructor
  · rw [List.filterMap_eq_nil_iff]
    intro k hk
    have hsome := (mem_keys_iff_getOwn_isSome x k).mp hk
    obtain ⟨v, hv⟩ := Option.isSome_iff_exists.mp hsome
    have hval : valueAt x k = v := by
      unfold valueAt
      rw [hv]
      rfl
    have hne := hasNoNaN_getOwn x k v h hv
    have hrefl : strictEq (valueAt x k) (valueAt x k) = true := by
      rw [hval]
      exact strictEq_refl_of_ne_nan v hne
    simp [hrefl]
  · rw [List.filterMap_eq_nil_iff]
    intro k hk
    have := (mem_keys_iff_getOwn_isSome x k).mp hk
    simp [hasOwn, this]

theorem shallowDiff_self_no_nan_witness :
    hasNoNaN [("count", Value.prim "0"), ("label", Value.prim "x")] = true
    ∧ shallowDiff [("count", Value.prim "0"), ("label", Value.prim "x")]
        [("count", Value.prim "0"), ("label", Value.prim "x")] = [] :=
  ⟨by decide, shallowDiff_self_no_nan _ (by decide)⟩

theorem getOwn_eq_none_of_not_mem_keys (o : Obj) (key : String) (h : key ∉ keys o) :
    getOwn o key = none := by
  by_contra hc
  exact h ((mem_keys_iff_getOwn_isSome o key).mpr (Option.isSome_iff_ne_none.mpr hc))

theorem hasNoFunctions_setKey (o : Obj) (key : String) (v : Value)
    (ho : hasNoFunctions o = true) (hv : v.isFunction = false) :
    hasNoFunctions (setKey o key v) = true := by
  induction o with
  | nil => simp [setKey, hasNoFunctions, hv]
  | cons p rest ih =>
    obtain ⟨k0, v0⟩ := p
    simp only [hasNoFunctions, List.all_cons, Bool.and_eq_true] at ho
    by_cases h : k0 = key
    · simp [setKey, h, hasNoFunctions, hv, ho.2]
    · have := ih (by simpa [hasNoFunctions] using ho.2)
      simp only [setKey, if_neg h, hasNoFunctions, List.all_cons, Bool.and_eq_true]
      exact ⟨ho.1, by simpa [hasNoFunctions] using this⟩

theorem hasNoFunctions_strip_foldl (s : Obj) :
    ∀ acc : Obj, hasNoFunctions acc = true →
      hasNoFunctions
        (s.foldl (fun out p => if p.2.isFunction then out else setKey out p.1 p.2) acc)
      = true := by
  induction s with
  | nil => intro acc h; exact h
  | cons p rest ih =>
    intro acc h
    by_cases hf : p.2.isFunction
    · simpa [List.foldl_cons, hf] using ih acc h
    · simpa [List.foldl_cons, hf] using
        ih (setKey acc p.1 p.2) (hasNoFunctions_setKey acc p.1 p.2 h (by simpa using hf))

theorem hasNoFunctions_getOwn (o : Obj) (key : String) (v : Value)
    (ho : hasNoFunctions o = true) (h : getOwn o key = some v) :
    v.isFunction = false := by
  induction o with
  | nil => simp [getOwn] at h
  | cons p rest ih =>
    obtain ⟨k0, v0⟩ := p
    simp only [hasNoFunctions, List.all_cons, Bool.and_eq_true] at ho
    by_cases hk : k0 = key
    · simp only [getOwn, if_pos hk, Option.some.injEq] at h
      subst h
      simpa using ho.1
    · exact ih (by simpa [hasNoFunctions] using ho.2) (by simpa [getOwn, hk] using h)

theorem getOwn_mergeStatePreservingFunctions (current next : Obj)
    (hw : (keys current).Nodup) (key : String) :
    getOwn (mergeStatePreservingFunctions current next) key =
      match getOwn current key with
      | some v => if v.isFunction then some v else getOwn next key
      | none => getOwn next key := by
  induction current generalizing next with
  | nil => simp [mergeStatePreservingFunctions, getOwn]
  | cons p rest ih =>
    obtain ⟨k0, v0⟩ := p
    have hw3 : (k0 :: keys rest).Nodup := hw
    have hw2 : k0 ∉ keys rest ∧ (keys rest).Nodup := List.nodup_cons.mp hw3
    have hstep : mergeStatePreservingFunctions ((k0, v0) :: rest) next
        = mergeStatePreservingFunctions rest
            (if v0.isFunction then setKey next k0 v0 else next) := rfl
    rw [hstep, ih _ hw2.2]
    by_cases hk : k0 = key
    · subst hk
      have hrest : getOwn rest k0 = none := getOwn_eq_none_of_not_mem_keys rest k0 hw2.1
      rw [hrest]
      by_cases hf : v0.isFunction
      · simp [getOwn, hf, getOwn_setKey_self]
      · simp [getOwn, hf]
    · have hcons : getOwn ((k0, v0) :: rest) key = getOwn rest key := by
        simp [getOwn, hk]
      rw [hcons]
      by_cases hf : v0.isFunction
      · rw [if_pos hf, getOwn_setKey_ne next k0 key v0 hk]
      · rw [if_neg hf]

/-- C2: the readiness entry point is idempotent per (store, name): a
first call on a fresh pair performs exactly one initial-state fetch and
one sync attachment, and any later call that finds the cached entry
returns it unchanged, starting no new connection attempt and attaching
no new listeners. -/
theorem wxtZustandStoreReady_idempotent (s : ReadyState) (storeId : Nat) (storeName : String)
    (h : getStoreReadiness s.registry (storeId, storeName) = none) :
    ((wxtZustandStoreReady storeId storeName s).1.fetchCount = s.fetchCount + 1)
    ∧ ((wxtZustandStoreReady storeId storeName s).1.attachCount = s.attachCount + 1)
    ∧ (wxtZustandStoreReady storeId storeName (wxtZustandStoreReady storeId storeName s).1
        = ((wxtZustandStoreReady storeId storeName s).1,
           (wxtZustandStoreReady storeId storeName s).2))
    ∧ (∀ (t : ReadyState) (p : Nat),
        getStoreReadiness t.registry (storeId, storeName) = some p →
        wxtZustandStoreReady storeId storeName t = (t, p)) := by
  refine ⟨?_, ?_, ?_, ?_⟩
  · unfold wxtZustandStoreReady
    rw [h]
  · unfold wxtZustandStoreReady
    rw [h]
  · unfold wxtZustandStoreReady
    rw [h]
    simp [getStoreReadiness]
  · intro t p hp
    unfold wxtZustandStoreReady
    rw [hp]

theorem wxtZustandStoreReady_idempotent_witness :
    getStoreReadiness (⟨[], 0, 0, 0⟩ : ReadyState).registry (7, "counter") = none
    ∧ (wxtZustandStoreReady 7 "counter" ⟨[], 0, 0, 0⟩).1.fetchCount = 0 + 1
    ∧ (wxtZustandStoreReady 7 "counter" ⟨[], 0, 0, 0⟩).1.attachCount = 0 + 1
    ∧ (wxtZustandStoreReady 7 "counter" (wxtZustandStoreReady 7 "counter" ⟨[], 0, 0, 0⟩).1
        = ((wxtZustandStoreReady 7 "counter" ⟨[], 0, 0, 0⟩).1,
           (wxtZustandStoreReady 7 "counter" ⟨[], 0, 0, 0⟩).2)) := by
  have hmain := wxtZustandStoreReady_idempotent ⟨[], 0, 0, 0⟩ 7 "counter" rfl
  exact ⟨rfl, hmain.1, hmain.2.1, hmain.2.2.1⟩

/-- C10: the first cleanup call on a live SyncSession marks it cleaned
and invokes the local unsubscribe and the remote unwatch exactly once
each; cleanup is then idempotent, and every call on a cleaned session
is a no-op that invokes neither underlying handle. -/
theorem cleanup_detaches_exactly_once (s : SessionState) (h : s.cleaned = false) :
    ((cleanup s).cleaned = true)
    ∧ ((cleanup s).unsubCalls = s.unsubCalls + 1)
    ∧ ((cleanup s).unwatchCalls = s.unwatchCalls + 1)
    ∧ (cleanup (cleanup s) = cleanup s)
    ∧ (∀ t : SessionState, t.cleaned = true → cleanup t = t) := by
  refine ⟨?_, ?_, ?_, ?_, ?_⟩
  · simp [cleanup, h]
  · simp [cleanup, h]
  · simp [cleanup, h]
  · simp [cleanup, h]
  · intro t ht
    simp [cleanup, ht]

theorem cleanup_detaches_exactly_once_witness :
    ((⟨false, 0, 0⟩ : SessionState).cleaned = false)
    ∧ (cleanup ⟨false, 0, 0⟩).unsubCalls = 0 + 1
    ∧ (cleanup ⟨false, 0, 0⟩).unwatchCalls = 0 + 1
    ∧ cleanup (cleanup ⟨false, 0, 0⟩) = cleanup ⟨false, 0, 0⟩ := by
  have hmain := cleanup_detaches_exactly_once ⟨false, 0, 0⟩ rfl
  exact ⟨rfl, hmain.2.1, hmain.2.2.1, hmain.2.2.2.1⟩

/-- C9: dispatch echoes every envelope back to its caller and never
throws: a mismatched type tag is warned about and leaves the store
untouched, and even when applying a valid envelope fails in setState
the failure is caught and logged and the envelope is still returned. -/
theorem dispatch_never_throws (setStateFails : Bool) (st : Obj) (a : WXTZustandAction) :
    ((dispatch setStateFails st a).returned = a)
    ∧ (a.type ≠ wxtZustandSyncType →
        (dispatch setStateFails st a).store = st
        ∧ (dispatch setStateFails st a).warned = true)
    ∧ (a.type = wxtZustandSyncType → setStateFails = true →
        (dispatch setStateFails st a).store = st
        ∧ (dispatch setStateFails st a).errorLogged = true
        ∧ (dispatch setStateFails st a).returned = a) := by
  unfold dispatch
  by_cases h : a.type = wxtZustandSyncType <;> cases setStateFails <;> simp [h]

theorem dispatch_never_throws_witness :
    ("NOT_SYNC" ≠ wxtZustandSyncType)
    ∧ (dispatch false [("n", Value.prim "0")] ⟨"NOT_SYNC", []⟩).returned = ⟨"NOT_SYNC", []⟩
    ∧ (dispatch false [("n", Value.prim "0")] ⟨"NOT_SYNC", []⟩).store = [("n", Value.prim "0")]
    ∧ (dispatch false [("n", Value.prim "0")] ⟨"NOT_SYNC", []⟩).warned = true
    ∧ (dispatch true [("n", Value.prim "0")] ⟨wxtZustandSyncType, []⟩).errorLogged = true := by
  have htag : ("NOT_SYNC" : String) ≠ wxtZustandSyncType := by decide
  have h1 := dispatch_never_throws false [("n", Value.prim "0")] ⟨"NOT_SYNC", []⟩
  have h2 := dispatch_never_throws true [("n", Value.prim "0")] ⟨wxtZustandSyncType, []⟩
  exact ⟨htag, h1.1, (h1.2.1 htag).1, (h1.2.1 htag).2, (h2.2.2 rfl rfl).2.1⟩

/-- C4 counterexample: fetchInitialState returns the canonical state
as-is, so on a store state that holds an action closure the returned
snapshot does contain a callable member, contradicting the claim that
it never does. -/
theorem fetchInitialState_keeps_callables :
    hasNoFunctions (fetchInitialState demoStateWithAction) = false := by decide

/-- C4 amended: the push path strips callable members before
dispatching, so pushed snapshots carry none; fetchInitialState returns
the canonical state unchanged, callables included; and whenever the
incoming snapshot is callable-free, every callable member of the merged
state is the receiving side's own current binding. -/
theorem callables_stay_local (s current next : Obj)
    (hw : (keys current).Nodup) (hnf : hasNoFunctions next = true) :
    (hasNoFunctions (localCallbackAction s).state = true)
    ∧ (fetchInitialState s = s)
    ∧ (∀ (key : String) (v : Value),
        getOwn (mergeStatePreservingFunctions current next) key = some v →
        v.isFunction = true → getOwn current key = some v) := by
  refine ⟨?_, rfl, ?_⟩
  · exact hasNoFunctions_strip_foldl s [] rfl
  · intro key v hget hfn
    rw [getOwn_mergeStatePreservingFunctions current next hw key] at hget
    cases hcur : getOwn current key with
    | some w =>
      rw [hcur] at hget
      by_cases hwf : w.isFunction
      · have hsome : some w = some v := by simpa [hwf] using hget
        exact hsome
      · have hnext : getOwn next key = some v := by simpa [hwf] using hget
        exact absurd hfn (by simp [hasNoFunctions_getOwn next key v hnf hnext])
    | none =>
      rw [hcur] at hget
      have hnext : getOwn next key = some v := by simpa using hget
      exact absurd hfn (by simp [hasNoFunctions_getOwn next key v hnf hnext])

theorem connectLoop_transient_exhaustion {S : Type} (f : Nat → Except JsError S)
    (e : Nat → JsError) (b : Nat) (remaining attempt : Nat)
    (hfail : ∀ i, attempt ≤ i → i ≤ attempt + remaining → f i = .error (e i))
    (htrans : ∀ i, isExtensionContextInvalidated (e i) = false) :
    connectLoop f b remaining attempt =
      { result := .error (e (attempt + remaining)),
        fetchCalls := remaining + 1,
        waits := (List.range remaining).map fun i => b * 2 ^ (attempt + i),
        warnCount := if remaining ≠ 0 ∧ attempt = 0 then 1 else 0,
        errorLogAttempts := some (attempt + remaining + 1),
        reloadCount := 0 } := by
  induction remaining generalizing attempt with
  | zero =>
    have h0 : f attempt = .error (e attempt) := hfail attempt le_rfl (by omega)
    rw [connectLoop]
    simp [h0, htrans attempt]
  | succ r ih =>
    have h0 : f attempt = .error (e attempt) := hfail attempt le_rfl (by omega)
    have hrest := ih (attempt + 1) (fun i h1 h2 => hfail i (by omega) (by omega))
    rw [connectLoop]
    simp only [h0, htrans attempt, Bool.false_eq_true, if_false, hrest]
    have hidx : attempt + 1 + r = attempt + (r + 1) := by omega
    have hwaits : (b * 2 ^ attempt) :: ((List.range r).map fun i => b * 2 ^ (attempt + 1 + i))
        = (List.range (r + 1)).map fun i => b * 2 ^ (attempt + i) := by
      rw [List.range_succ_eq_map, List.map_cons, List.map_map]
      refine congrArg₂ _ (by rw [Nat.add_zero]) ?_
      refine List.map_congr_left fun i _ => ?_
      simp only [Function.comp_apply]
      have hexp : attempt + 1 + i = attempt + i.succ := by omega
      rw [hexp]
    have hwarn : (if attempt = 0 then 1 else 0) + (if r ≠ 0 ∧ attempt + 1 = 0 then 1 else 0)
        = if r + 1 ≠ 0 ∧ attempt = 0 then 1 else 0 := by
      simp
    rw [hidx, hwaits, hwarn]

/-- C6: when every attempt of the remote initial-state fetch fails
transiently under the default configuration, the loop waits 50 times
two to the attempt between attempts starting at attempt 0, retries up
to the maximum of 5 retries, warns exactly once on the first transient
failure, logs the exhaustion error carrying the total attempt count,
performs no recovery action, and re-raises the last observed error. -/
theorem connectAndFetchInitialState_transient_exhaustion {S : Type}
    (f : Nat → Except JsError S) (e : Nat → JsError)
    (hfail : ∀ i, i ≤ 5 → f i = .error (e i))
    (htrans : ∀ i, isExtensionContextInvalidated (e i) = false) :
    connectAndFetchInitialState f none none =
      { result := .error (e 5), fetchCalls := 6, waits := [50, 100, 200, 400, 800],
        warnCount := 1, errorLogAttempts := some 6, reloadCount := 0 } := by
  show connectLoop f 50 5 0 = _
  rw [connectLoop_transient_exhaustion f e 50 5 0 (fun i h1 h2 => hfail i (by omega)) htrans]
  rfl

theorem connectAndFetchInitialState_transient_exhaustion_witness :
    ((∀ i, i ≤ 5 → (fun _ => (.error demoTransientError : Except JsError Obj)) i
        = .error demoTransientError)
    ∧ isExtensionContextInvalidated demoTransientError = false)
    ∧ connectAndFetchInitialState (fun _ => (.error demoTransientError : Except JsError Obj))
        none none =
      { result := .error demoTransientError, fetchCalls := 6,
        waits := [50, 100, 200, 400, 800], warnCount := 1,
        errorLogAttempts := some 6, reloadCount := 0 } := by
  have htr : isExtensionContextInvalidated demoTransientError = false := by decide
  refine ⟨⟨fun i _ => rfl, htr⟩, ?_⟩
  exact connectAndFetchInitialState_transient_exhaustion
    (fun _ => (.error demoTransientError : Except JsError Obj))
    (fun _ => demoTransientError) (fun i _ => rfl) (fun _ => htr)

theorem connectLoop_fatal_abort {S : Type} (f : Nat → Except JsError S)
    (e : Nat → JsError) (ef : JsError) (b : Nat) (j : Nat) :
    ∀ (remaining attempt : Nat), j ≤ remaining →
      (∀ i, attempt ≤ i → i < attempt + j →
        f i = .error (e i) ∧ isExtensionContextInvalidated (e i) = false) →
      f (attempt + j) = .error ef → isExtensionContextInvalidated ef = true →
      connectLoop f b remaining attempt =
        { result := .error ef, fetchCalls := j + 1,
          waits := (List.range j).map fun i => b * 2 ^ (attempt + i),
          warnCount := if j ≠ 0 ∧ attempt = 0 then 1 else 0,
          errorLogAttempts := none, reloadCount := 1 } := by
  induction j with
  | zero =>
    intro remaining attempt _ _ hfat hef
    rw [connectLoop]
    simp [show attempt + 0 = attempt from rfl] at hfat
    simp [hfat, hef]
  | succ j ih =>
    intro remaining attempt hle hpre hfat hef
    obtain ⟨r, rfl⟩ : ∃ r, remaining = r + 1 := ⟨remaining - 1, by omega⟩
    have h0 := hpre attempt le_rfl (by omega)
    have hrest := ih r (attempt + 1) (by omega)
      (fun i h1 h2 => hpre i (by omega) (by omega))
      (by rw [show attempt + 1 + j = attempt + (j + 1) from by omega]; exact hfat) hef
    rw [connectLoop]
    simp only [h0.1, h0.2, Bool.false_eq_true, if_false, hrest]
    have hwaits : (b * 2 ^ attempt) :: ((List.range j).map fun i => b * 2 ^ (attempt + 1 + i))
        = (List.range (j + 1)).map fun i => b * 2 ^ (attempt + i) := by
      rw [List.range_succ_eq_map, List.map_cons, List.map_map]
      refine congrArg₂ _ (by rw [Nat.add_zero]) ?_
      refine List.map_congr_left fun i _ => ?_
      simp only [Function.comp_apply]
      have hexp : attempt + 1 + i = attempt + i.succ := by omega
      rw [hexp]
    have hwarn : (if attempt = 0 then 1 else 0) + (if j ≠ 0 ∧ attempt + 1 = 0 then 1 else 0)
        = if j + 1 ≠ 0 ∧ attempt = 0 then 1 else 0 := by
      simp
    rw [hwaits, hwarn]

/-- C7: when the remote fetch fails with a fatal-context error (after
any number of earlier transient failures within the default budget),
the retry loop stops at once: no further fetch attempts, no further
backoff waits, exactly one page-reload recovery action, and the fatal
error is re-raised to the caller with no exhaustion error log. -/
theorem connectAndFetchInitialState_fatal_abort {S : Type}
    (f : Nat → Except JsError S) (e : Nat → JsError) (ef : JsError) (j : Nat)
    (hj : j ≤ 5)
    (hpre : ∀ i, i < j → f i = .error (e i) ∧ isExtensionContextInvalidated (e i) = false)
    (hfat : f j = .error ef) (hef : isExtensionContextInvalidated ef = true) :
    connectAndFetchInitialState f none none =
      { result := .error ef, fetchCalls := j + 1,
        waits := (List.range j).map fun i => 50 * 2 ^ i,
        warnCount := if j = 0 then 0 else 1,
        errorLogAttempts := none, reloadCount := 1 } := by
  show connectLoop f 50 5 0 = _
  rw [connectLoop_fatal_abort f e ef 50 j 5 0 hj (fun i h1 h2 => hpre i (by omega))
    (by rw [Nat.zero_add]; exact hfat) hef]
  have hwaits : ((List.range j).map fun i => 50 * 2 ^ (0 + i))
      = (List.range j).map fun i => 50 * 2 ^ i := by
    refine List.map_congr_left fun i _ => ?_
    rw [Nat.zero_add]
  have hwarn : (if j ≠ 0 ∧ 0 = 0 then 1 else 0) = if j = 0 then 0 else 1 := by
    by_cases h : j = 0 <;> simp [h]
  rw [hwaits, hwarn]

theorem connectAndFetchInitialState_fatal_abort_witness :
    (isExtensionContextInvalidated demoFatalError = true)
    ∧ connectAndFetchInitialState (fun _ => (.error demoFatalError : Except JsError Obj))
        none none =
      { result := .error demoFatalError, fetchCalls := 1, waits := [],
        warnCount := 0, errorLogAttempts := none, reloadCount := 1 } := by
  refine ⟨by decide, ?_⟩
  have hmain := connectAndFetchInitialState_fatal_abort
    (fun _ => (.error demoFatalError : Except JsError Obj))
    (fun _ => demoFatalError) demoFatalError 0 (by omega)
    (fun i h => absurd h (Nat.not_lt_zero i)) rfl (by decide)
  simpa using hmain

theorem saveLoop_exhaustion (saveResult : Nat → Except JsError Unit)
    (e : Nat → JsError) (b : Nat) (remaining attempt : Nat)
    (hfail : ∀ i, attempt ≤ i → i ≤ attempt + remaining → saveResult i = .error (e i)) :
    saveLoop saveResult b remaining attempt =
      { result := .error (e (attempt + remaining)),
        saveCalls := remaining + 1,
        waits := (List.range remaining).map fun i => b * 2 ^ (attempt + i),
        warnCount := if remaining ≠ 0 ∧ attempt = 0 then 1 else 0,
        errorLogAttempts := some (attempt + remaining + 1) } := by
  induction remaining generalizing attempt with
  | zero =>
    have h0 : saveResult attempt = .error (e attempt) := hfail attempt le_rfl (by omega)
    rw [saveLoop]
    simp [h0]
  | succ r ih =>
    have h0 : saveResult attempt = .error (e attempt) := hfail attempt le_rfl (by omega)
    have hrest := ih (attempt + 1) (fun i h1 h2 => hfail i (by omega) (by omega))
    rw [saveLoop]
    simp only [h0, hrest]
    have hidx : attempt + 1 + r = attempt + (r + 1) := by omega
    have hwaits : (b * 2 ^ attempt) :: ((List.range r).map fun i => b * 2 ^ (attempt + 1 + i))
        = (List.range (r + 1)).map fun i => b * 2 ^ (attempt + i) := by
      rw [List.range_succ_eq_map, List.map_cons, List.map_map]
      refine congrArg₂ _ (by rw [Nat.add_zero]) ?_
      refine List.map_congr_left fun i _ => ?_
      simp only [Function.comp_apply]
      have hexp : attempt + 1 + i = attempt + i.succ := by omega
      rw [hexp]
    have hwarn : (if attempt = 0 then 1 else 0) + (if r ≠ 0 ∧ attempt + 1 = 0 then 1 else 0)
        = if r + 1 ≠ 0 ∧ attempt = 0 then 1 else 0 := by
      simp
    rw [hidx, hwaits, hwarn]

/-- C3: when every save attempt of the persistence step fails, the
authority's saveWithBackoff retries with exponential backoff (waits 50,
100, 200 between the four attempts of the default 3-retry budget),
warns exactly once on the first failure, logs an error carrying the
attempt count when the retries are exhausted, and re-raises the final
error to its caller as a rejection. -/
theorem saveWithBackoff_exhaustion_propagates (saveResult : Nat → Except JsError Unit)
    (e : Nat → JsError) (hfail : ∀ i, i ≤ 3 → saveResult i = .error (e i)) :
    saveWithBackoff saveResult none none =
      { result := .error (e 3), saveCalls := 4, waits := [50, 100, 200],
        warnCount := 1, errorLogAttempts := some 4 } := by
  show saveLoop saveResult 50 3 0 = _
  rw [saveLoop_exhaustion saveResult e 50 3 0 (fun i h1 h2 => hfail i (by omega))]
  rfl

theorem saveWithBackoff_exhaustion_propagates_witness :
    (∀ i, i ≤ 3 → (fun _ => (.error demoSaveError : Except JsError Unit)) i
        = .error demoSaveError)
    ∧ saveWithBackoff (fun _ => .error demoSaveError) none none =
      { result := .error demoSaveError, saveCalls := 4, waits := [50, 100, 200],
        warnCount := 1, errorLogAttempts := some 4 } := by
  refine ⟨fun i _ => rfl, ?_⟩
  exact saveWithBackoff_exhaustion_propagates (fun _ => .error demoSaveError)
    (fun _ => demoSaveError) (fun i _ => rfl)

/-- C8: a corrupted versioned read never escalates: the load always
returns normally; a getValue error yields undefined to the caller with
the corruption handler run; when the raw payload is readable and the
backup and removal succeed, exactly one backup entry is written under
the timestamp-suffixed key and the original item is removed; and when
the backup write fails, the failure is logged, nothing is written, the
original stays, and the caller still receives undefined. -/
theorem loadStateFromVersionedItem_corruption_recovery {S : Type} :
    (∀ env : VersionedLoadEnv S, exceptOk (loadStateFromVersionedItem env) = true)
    ∧ (∀ (env : VersionedLoadEnv S) (e : JsError), env.getValueResult = .error e →
        loadStateFromVersionedItem env = .ok (none, handleCorruptedState env))
    ∧ (∀ (env : VersionedLoadEnv S) (e : JsError) (raw : String),
        env.getValueResult = .error e → env.rawRead = .ok (some raw) →
        env.backupWriteFails = false → env.removeFails = false →
        loadStateFromVersionedItem env =
          .ok (none,
            { backupWrites := [(env.itemKey ++ ":corrupted-" ++ toString env.now, raw)],
              removedOriginal := true, recoveryFailureLogged := false }))
    ∧ (∀ (env : VersionedLoadEnv S) (e : JsError) (raw : String),
        env.getValueResult = .error e → env.rawRead = .ok (some raw) →
        env.backupWriteFails = true →
        loadStateFromVersionedItem env =
          .ok (none, { backupWrites := [], removedOriginal := false,
                       recoveryFailureLogged := true })) := by
  refine ⟨?_, ?_, ?_, ?_⟩
  · intro env
    unfold loadStateFromVersionedItem
    cases env.getValueResult <;> rfl
  · intro env e he
    unfold loadStateFromVersionedItem
    rw [he]
  · intro env e raw he hraw hb hr
    unfold loadStateFromVersionedItem
    rw [he]
    unfold handleCorruptedState
    rw [hraw, hb, hr]
    simp
  · intro env e raw he hraw hb
    unfold loadStateFromVersionedItem
    rw [he]
    unfold handleCorruptedState
    rw [hraw, hb]
    simp

theorem loadStateFromVersionedItem_corruption_recovery_witness :
    (demoCorruptEnv.getValueResult = .error ⟨"Unexpected token in JSON"⟩)
    ∧ (demoCorruptEnv.rawRead = .ok (some "not-json"))
    ∧ loadStateFromVersionedItem demoCorruptEnv =
      .ok (none,
        { backupWrites :=
            [("local:wxt-zustand:counter:state:corrupted-1700000000000", "not-json")],
          removedOriginal := true, recoveryFailureLogged := false }) := by
  refine ⟨rfl, rfl, ?_⟩
  have hmain := (loadStateFromVersionedItem_corruption_recovery (S := Obj)).2.2.1
    demoCorruptEnv ⟨"Unexpected token in JSON"⟩ "not-json" rfl rfl rfl rfl
  simpa using hmain

theorem callables_stay_local_witness :
    ((keys demoStateWithAction).Nodup)
    ∧ (hasNoFunctions [("count", Value.prim "5")] = true)
    ∧ (hasNoFunctions (localCallbackAction demoStateWithAction).state = true)
    ∧ (fetchInitialState demoStateWithAction = demoStateWithAction)
    ∧ (getOwn demoStateWithAction "increment" = some (Value.fnref 0)) := by
  have hw : (keys demoStateWithAction).Nodup := by decide
  have hnf : hasNoFunctions [("count", Value.prim "5")] = true := by decide
  have hmain := callables_stay_local demoStateWithAction demoStateWithAction
    [("count", Value.prim "5")] hw hnf
  refine ⟨hw, hnf, hmain.1, hmain.2.1, ?_⟩
  exact hmain.2.2 "increment" (Value.fnref 0) (by decide) (by decide)

end WxtZustand
